import Mathlib

/-!
Verification of the `git-commit-buddy` save-trigger guard and commit pipeline.

The definitions below are a shallow embedding of the JavaScript sources of the
repository (VS Code extension "git-autopush"):
  * the trigger-token guard at the top of `handleSave`,
  * the policy/push decision and `buildCommitCommand` of the git-operations
    module,
  * the AI service (`makeAPIRequest` / `parseResponse`) and the message
    selection logic of `handleSave`,
  * the deterministic message picker (`getSmartMessage` /
    `getSmartMessageWithFile`),
  * the diff/context extractor (`getStagedDiff` / `getFileDiff` and the
    fallback chain in `handleSave`),
  * the change analyzer (`analyzeDiff` and its helpers).

JavaScript numbers that only ever hold integer counts are modelled as `Nat`
(or `Int` where a subtraction may go negative); JS truthiness of a string is
modelled as the test `s = ""`; `Map` is modelled as an association list.
-/

/-! ## Save-trigger guard (handleSave, token validation section) -/

/-- The persisted trigger token `{ path, nonce, expires }` written by the
`saveAndRun` command. -/
structure TriggerToken where
  path : String
  nonce : String
  expires : Nat
deriving DecidableEq, Repr

/-- The mutable state the guard reads and writes: the persisted token
(workspaceState key `gitAutopush.triggeredBySaveKeyFor`, `none` models JS
`null`) and the in-memory `triggerNonces` map. -/
structure GuardState where
  token : Option TriggerToken
  nonces : List (String × String)
deriving DecidableEq, Repr

/-- Terminal outcome of the token-validation section of `handleSave`. All
outcomes except `authorized` make the handler return without running the
policy chain or any git command. -/
inductive GuardDecision where
  | noToken
  | tokenExpired
  | pathMismatch
  | nonceMismatch
  | authorized
deriving DecidableEq, Repr

/-- Association-list lookup modelling `Map.prototype.get` (first matching
key wins; a `Map` has unique keys). -/
def lookupNonce : List (String × String) → String → Option String
  | [], _ => none
  | (k, v) :: rest, p => if k = p then some v else lookupNonce rest p

/-- Modelling `Map.prototype.delete`: remove the entry for `p`. -/
def eraseNonce (m : List (String × String)) (p : String) : List (String × String) :=
  m.filter (fun kv => kv.1 != p)

/-- JS `s || null` for a string `s`: the empty string is falsy. -/
def jsStrOrNone (s : String) : Option String :=
  if s = "" then none else some s

/-- `triggerNonces.get(path) || null`: a missing entry and an empty stored
nonce both give `null`. -/
def jsMapGetOrNull (m : List (String × String)) (p : String) : Option String :=
  match lookupNonce m p with
  | none => none
  | some v => jsStrOrNone v

/-- The token-validation section of `handleSave` (part_002, lines 992-1022),
as a function from the pre-state to the decision and the post-state.  The
source clears the persisted token and the nonce entry immediately after the
checks pass and before the policy chain or any git command, which is modelled
here by the `authorized` branch returning the already-cleared state that the
rest of the pipeline consumes.  `tok.expires = 0` models the falsiness test
`!token.expires`; the JS condition
`!expectedNonce || !currentNonce || expectedNonce !== currentNonce` is the
match below (either operand `null`, or the two differ, is a mismatch). -/
def validateSaveToken (s : GuardState) (now : Nat) (savePath : String) :
    GuardDecision × GuardState :=
  match s.token with
  | none => (.noToken, s)
  | some tok =>
    if tok.path = "" then (.noToken, s)
    else if tok.expires = 0 ∨ tok.expires < now then
      (.tokenExpired, { s with token := none })
    else if tok.path ≠ savePath then (.pathMismatch, s)
    else
      match jsStrOrNone tok.nonce, jsMapGetOrNull s.nonces savePath with
      | none, _ => (.nonceMismatch, s)
      | some _, none => (.nonceMismatch, s)
      | some expected, some current =>
        if expected ≠ current then (.nonceMismatch, s)
        else (.authorized, { token := none, nonces := eraseNonce s.nonces savePath })

/-- Deleting a key from the nonce map makes lookups of that key fail. -/
theorem lookupNonce_eraseNonce (m : List (String × String)) (p : String) :
    lookupNonce (eraseNonce m p) p = none := by
  induction m with
  | nil => rfl
  | cons kv rest ih =>
    simp only [eraseNonce, List.filter_cons] at *
    by_cases h : kv.1 = p
    · simp [h, ih]
    · simp [h, lookupNonce, ih]

/-- C1: a trigger token authorizes at most one save.  If a save event passes
all guard checks, the post-state has neither the persisted token nor the
in-memory nonce entry (both were cleared before the policy chain and git
commands run, since the post-state is what the rest of `handleSave` sees), so
a second save of the same file finds no token (`noToken`) and in particular
is not authorized: two sequential saves yield exactly one authorized
proceed. -/
theorem trigger_token_single_use (s : GuardState) (now later : Nat) (p : String)
    (h : (validateSaveToken s now p).1 = GuardDecision.authorized) :
    (validateSaveToken s now p).2.token = none ∧
    lookupNonce (validateSaveToken s now p).2.nonces p = none ∧
    (validateSaveToken (validateSaveToken s now p).2 later p).1 = GuardDecision.noToken ∧
    (validateSaveToken (validateSaveToken s now p).2 later p).1 ≠ GuardDecision.authorized := by
  rcases s with ⟨tok?, nonces⟩
  cases tok? with
  | none => simp [validateSaveToken] at h
  | some tok =>
    by_cases h1 : tok.path = ""
    · simp [validateSaveToken, h1] at h
    · by_cases h2 : tok.expires = 0 ∨ tok.expires < now
      · simp [validateSaveToken, h1, h2] at h
      · by_cases h3 : tok.path = p
        · subst h3
          rcases he : jsStrOrNone tok.nonce with _ | e
          · simp [validateSaveToken, h1, h2, he] at h
          · rcases hc : jsMapGetOrNull nonces tok.path with _ | c
            · simp [validateSaveToken, h1, h2, he, hc] at h
            · by_cases h4 : e = c
              · simp [validateSaveToken, h1, h2, he, hc, h4,
                  lookupNonce_eraseNonce]
              · simp [validateSaveToken, h1, h2, he, hc, h4] at h
        · simp [validateSaveToken, h1, h2, h3] at h

/-- Closed witness for `trigger_token_single_use` at a concrete authorized
state. -/
theorem trigger_token_single_use_witness :
    (validateSaveToken
        { token := some { path := "/r/a.txt", nonce := "abc", expires := 10 },
          nonces := [("/r/a.txt", "abc")] } 5 "/r/a.txt").2.token = none ∧
    lookupNonce (validateSaveToken
        { token := some { path := "/r/a.txt", nonce := "abc", expires := 10 },
          nonces := [("/r/a.txt", "abc")] } 5 "/r/a.txt").2.nonces "/r/a.txt" = none ∧
    (validateSaveToken (validateSaveToken
        { token := some { path := "/r/a.txt", nonce := "abc", expires := 10 },
          nonces := [("/r/a.txt", "abc")] } 5 "/r/a.txt").2 7 "/r/a.txt").1 =
      GuardDecision.noToken ∧
    (validateSaveToken (validateSaveToken
        { token := some { path := "/r/a.txt", nonce := "abc", expires := 10 },
          nonces := [("/r/a.txt", "abc")] } 5 "/r/a.txt").2 7 "/r/a.txt").1 ≠
      GuardDecision.authorized :=
  trigger_token_single_use _ 5 7 "/r/a.txt" (by decide)

/-- C2: a save on a different path than a live token's `filePath` yields
`pathMismatch`, triggers nothing, and leaves the whole guard state (token and
nonce map) unchanged; a later save of the token's own path, before expiry and
with the matching in-memory nonce, is still authorized. -/
theorem path_mismatch_leaves_token_intact (s : GuardState) (tok : TriggerToken)
    (now later : Nat) (otherPath : String)
    (htok : s.token = some tok)
    (hpath : tok.path ≠ "")
    (hlive : ¬ (tok.expires = 0 ∨ tok.expires < now))
    (hdiff : otherPath ≠ tok.path)
    (hlive2 : ¬ tok.expires < later)
    (hnonce : tok.nonce ≠ "")
    (hmap : lookupNonce s.nonces tok.path = some tok.nonce) :
    validateSaveToken s now otherPath = (GuardDecision.pathMismatch, s) ∧
    (validateSaveToken s later tok.path).1 = GuardDecision.authorized := by
  have hexp : tok.expires ≠ 0 := fun h => hlive (Or.inl h)
  rcases s with ⟨tok?, nonces⟩
  obtain rfl : tok? = some tok := htok
  have hmap' : lookupNonce nonces tok.path = some tok.nonce := hmap
  have hd : tok.path ≠ otherPath := fun hh => hdiff hh.symm
  constructor
  · simp [validateSaveToken, hpath, hlive, hd]
  · have hm2 : jsMapGetOrNull nonces tok.path = some tok.nonce := by
      simp [jsMapGetOrNull, hmap', jsStrOrNone, hnonce]
    simp [validateSaveToken, hpath, hexp, hlive2, hm2, jsStrOrNone, hnonce]

/-- Closed witness for `path_mismatch_leaves_token_intact`: a save of
`/r/b.txt` against a live token for `/r/a.txt` is ignored with the state
untouched, and a following save of `/r/a.txt` is authorized. -/
theorem path_mismatch_leaves_token_intact_witness :
    validateSaveToken
        { token := some { path := "/r/a.txt", nonce := "abc", expires := 10 },
          nonces := [("/r/a.txt", "abc")] } 5 "/r/b.txt" =
      (GuardDecision.pathMismatch,
        { token := some { path := "/r/a.txt", nonce := "abc", expires := 10 },
          nonces := [("/r/a.txt", "abc")] }) ∧
    (validateSaveToken
        { token := some { path := "/r/a.txt", nonce := "abc", expires := 10 },
          nonces := [("/r/a.txt", "abc")] } 7 "/r/a.txt").1 =
      GuardDecision.authorized :=
  path_mismatch_leaves_token_intact _ _ 5 7 "/r/b.txt" rfl (by decide) (by decide)
    (by decide) (by decide) (by decide) (by decide)

/-- C4 counterexample: on a nonce mismatch for the token's own path the guard
ignores the save but does NOT delete the persisted token — the post-state
still holds the token, refuting the claim that a nonce mismatch deletes it. -/
theorem nonce_mismatch_keeps_token_counterexample :
    (validateSaveToken
        { token := some { path := "/r/a.txt", nonce := "abc", expires := 10 },
          nonces := [("/r/a.txt", "xyz")] } 5 "/r/a.txt").1 =
      GuardDecision.nonceMismatch ∧
    (validateSaveToken
        { token := some { path := "/r/a.txt", nonce := "abc", expires := 10 },
          nonces := [("/r/a.txt", "xyz")] } 5 "/r/a.txt").2.token =
      some { path := "/r/a.txt", nonce := "abc", expires := 10 } := by
  decide

/-- C4 amended: a token is deleted on expiry or on successful consumption
only.  For a present token with a past (or falsy) expiry the guard ignores
the save (`tokenExpired`) and clears the persisted token; on a nonce mismatch
it ignores the save (`nonceMismatch`) but leaves the token and the nonce map
unchanged. -/
theorem token_cleared_on_expiry_kept_on_nonce_mismatch (s : GuardState)
    (tok : TriggerToken) (now : Nat) (p : String)
    (htok : s.token = some tok) (hpath : tok.path ≠ "") :
    ((tok.expires = 0 ∨ tok.expires < now) →
      validateSaveToken s now p = (GuardDecision.tokenExpired, { s with token := none })) ∧
    ((validateSaveToken s now p).1 = GuardDecision.nonceMismatch →
      (validateSaveToken s now p).2 = s) := by
  rcases s with ⟨tok?, nonces⟩
  obtain rfl : tok? = some tok := htok
  constructor
  · intro hexp
    simp [validateSaveToken, hpath, hexp]
  · intro h
    by_cases h2 : tok.expires = 0 ∨ tok.expires < now
    · simp [validateSaveToken, hpath, h2] at h
    · by_cases h3 : tok.path = p
      · subst h3
        rcases he : jsStrOrNone tok.nonce with _ | e
        · simp [validateSaveToken, hpath, h2, he]
        · rcases hc : jsMapGetOrNull nonces tok.path with _ | c
          · simp [validateSaveToken, hpath, h2, he, hc]
          · by_cases h4 : e = c
            · simp [validateSaveToken, hpath, h2, he, hc, h4] at h
            · simp [validateSaveToken, hpath, h2, he, hc, h4]
      · simp [validateSaveToken, hpath, h2, h3] at h

/-- Closed witness for `token_cleared_on_expiry_kept_on_nonce_mismatch`: an
expired token is cleared. -/
theorem token_cleared_on_expiry_witness :
    validateSaveToken
        { token := some { path := "/r/a.txt", nonce := "abc", expires := 10 },
          nonces := [] } 100 "/r/a.txt" =
      (GuardDecision.tokenExpired,
        { token := none, nonces := ([] : List (String × String)) }) :=
  (token_cleared_on_expiry_kept_on_nonce_mismatch _ _ 100 "/r/a.txt" rfl
    (by decide)).1 (by decide)

/-! ## Commit/push executor (git-operations module) -/

/-- `message.replace(/"/g, '\\"')` at character level: every double quote
gains a preceding backslash. -/
def escapeQuotes : List Char → List Char
  | [] => []
  | c :: rest =>
    if c = '"' then '\\' :: '"' :: escapeQuotes rest else c :: escapeQuotes rest

/-- `.replace(/\$/g, '\\$')`: every dollar sign gains a preceding
backslash. -/
def escapeDollars : List Char → List Char
  | [] => []
  | c :: rest =>
    if c = '$' then '\\' :: '$' :: escapeDollars rest else c :: escapeDollars rest

/-- The message escaping at the top of `buildCommitCommand` (part_006,
lines 141-143). -/
def escapeMessage (m : String) : String :=
  String.mk (escapeDollars (escapeQuotes m.data))

/-- The `commands` array built by `buildCommitCommand` (part_006, lines
145-152): stage everything, commit with the escaped message tolerating an
empty stage, and push only when `push` is set. -/
def buildCommitCommands (message branch : String) (push : Bool) : List String :=
  ["git add -A",
   "git commit -m \"" ++ escapeMessage message ++ "\" || echo \"nothing to commit\""] ++
  (if push then ["git push origin " ++ branch] else [])

/-- The full shell command string returned by `buildCommitCommand`
(part_006, lines 154-158). -/
def buildCommitCommand (workspaceFolder message branch : String) (push : Bool) : String :=
  (if workspaceFolder ≠ "" then
    "cd \"" ++ String.mk (escapeQuotes workspaceFolder.data) ++ "\" && "
   else "") ++
  String.intercalate " && " (buildCommitCommands message branch push)

/-- The push decision in `handleSave` (part_002, lines 1086-1091):
`canPush = autoPush`, downgraded to `false` when the current branch is in
`protectedBranches`. -/
def computeCanPush (autoPush : Bool) (protectedBranches : List String)
    (branch : String) : Bool :=
  if autoPush && protectedBranches.contains branch then false else autoPush

/-- Boolean prefix test on character lists (used to state "is a push
command"). -/
def startsWithChars : List Char → List Char → Bool
  | [], _ => true
  | _ :: _, [] => false
  | a :: as, b :: bs => a == b && startsWithChars as bs

/-- C3: with `autoPush` on and the current branch protected, the pipeline is
downgraded to commit-only — the push flag handed to the executor is `false`
for every dry-run setting, and the command sequence built is exactly stage
plus commit, with no command that is a `git push`. -/
theorem protected_branch_downgrades_to_commit_only
    (autoPush dryRun : Bool) (protectedBranches : List String) (branch msg : String)
    (hap : autoPush = true) (hprot : branch ∈ protectedBranches) :
    computeCanPush autoPush protectedBranches branch = false ∧
    buildCommitCommands msg branch
        (!dryRun && computeCanPush autoPush protectedBranches branch) =
      ["git add -A",
       "git commit -m \"" ++ escapeMessage msg ++ "\" || echo \"nothing to commit\""] ∧
    ∀ c ∈ buildCommitCommands msg branch
        (!dryRun && computeCanPush autoPush protectedBranches branch),
      startsWithChars "git push".data c.data = false := by
  subst hap
  have h1 : computeCanPush true protectedBranches branch = false := by
    simp [computeCanPush, hprot]
  refine ⟨h1, ?_, ?_⟩
  · simp [h1, buildCommitCommands]
  · intro c hc
    simp only [h1, Bool.and_false, buildCommitCommands, if_neg Bool.false_ne_true,
      List.append_nil, List.mem_cons, List.mem_singleton] at hc
    rcases hc with rfl | rfl | hc
    · decide
    · rfl
    · cases hc

/-- Closed witness for `protected_branch_downgrades_to_commit_only` on the
`main` branch of the default protected list. -/
theorem protected_branch_downgrade_witness :
    computeCanPush true ["main", "master", "production"] "main" = false ∧
    buildCommitCommands "update" "main"
        (!false && computeCanPush true ["main", "master", "production"] "main") =
      ["git add -A",
       "git commit -m \"" ++ escapeMessage "update" ++ "\" || echo \"nothing to commit\""] ∧
    ∀ c ∈ buildCommitCommands "update" "main"
        (!false && computeCanPush true ["main", "master", "production"] "main"),
      startsWithChars "git push".data c.data = false :=
  protected_branch_downgrades_to_commit_only true false _ "main" "update" rfl
    (by decide)

/-! ## Diff/context extractor -/

/-- `getStagedDiff` (part_006, lines 89-111) after the subprocess calls: the
raw cumulative staged diff (`none` models a thrown subprocess error, which
the catch turns into `""`) is truncated to 8000 characters plus a visible
marker. -/
def getStagedDiffResult (raw : Option String) : String :=
  match raw with
  | none => ""
  | some d =>
    if d.length > 8000 then String.mk (d.data.take 8000) ++ "\n...(truncated)" else d

/-- `getFileDiff` (part_006, lines 119-128): the single-file diff is returned
as-is; an error returns `""`.  Note: no length cap on this branch. -/
def getFileDiffResult (raw : Option String) : String :=
  match raw with
  | none => ""
  | some d => d

/-- The context-selection chain in `handleSave` (part_002, lines 1136-1144):
staged diff, else single-file diff, else the first 2000 characters of the
live document text. -/
def extractContext (staged fileDiff : Option String) (docText : String) : String :=
  let d1 := getStagedDiffResult staged
  if d1 ≠ "" then d1
  else
    let d2 := getFileDiffResult fileDiff
    if d2 ≠ "" then d2
    else String.mk (docText.data.take 2000)

/-- C7 counterexample: a 20000-character single-file diff flows through the
context extraction unchanged — far above the ≈8000 cap and with no
truncation marker — because only the staged-diff branch truncates. -/
theorem context_cap_counterexample :
    extractContext (some "") (some (String.mk (List.replicate 20000 'a'))) "" =
      String.mk (List.replicate 20000 'a') ∧
    8000 + ("\n...(truncated)").length <
      (extractContext (some "") (some (String.mk (List.replicate 20000 'a'))) "").length := by
  have hlen : (String.mk (List.replicate 20000 'a')).length = 20000 := by
    show (List.replicate 20000 'a').length = 20000
    rw [List.length_replicate]
  have hne : String.mk (List.replicate 20000 'a') ≠ "" := by
    intro h
    rw [h] at hlen
    exact absurd hlen (by decide)
  have hext : extractContext (some "") (some (String.mk (List.replicate 20000 'a'))) "" =
      String.mk (List.replicate 20000 'a') := by
    show (if (String.mk (List.replicate 20000 'a') ≠ "") then
            String.mk (List.replicate 20000 'a')
          else String.mk (("" : String).data.take 2000)) =
        String.mk (List.replicate 20000 'a')
    rw [if_pos hne]
  refine ⟨hext, ?_⟩
  rw [hext, hlen]
  decide

/-- C7 amended: the extractor prefers the staged diff, then the single-file
diff, then the first 2000 characters of the document text; the staged branch
is capped at 8000 characters plus the `...(truncated)` marker (appended
exactly when the cap applies) and the raw-text branch at 2000 characters, but
the single-file-diff branch is returned without any cap. -/
theorem extract_context_preference_and_caps
    (staged fileDiff : Option String) (docText : String) :
    (getStagedDiffResult staged ≠ "" →
      extractContext staged fileDiff docText = getStagedDiffResult staged ∧
      (getStagedDiffResult staged).length ≤ 8000 + ("\n...(truncated)").length) ∧
    (getStagedDiffResult staged = "" → getFileDiffResult fileDiff ≠ "" →
      extractContext staged fileDiff docText = getFileDiffResult fileDiff) ∧
    (getStagedDiffResult staged = "" → getFileDiffResult fileDiff = "" →
      extractContext staged fileDiff docText = String.mk (docText.data.take 2000) ∧
      (extractContext staged fileDiff docText).length ≤ 2000) ∧
    (∀ d, staged = some d → 8000 < d.length →
      getStagedDiffResult staged = String.mk (d.data.take 8000) ++ "\n...(truncated)") := by
  refine ⟨?_, ?_, ?_, ?_⟩
  · intro h1
    refine ⟨by simp [extractContext, h1], ?_⟩
    cases staged with
    | none => simp [getStagedDiffResult]
    | some d =>
      simp only [getStagedDiffResult]
      by_cases hlen : d.length > 8000
      · rw [if_pos hlen, String.length_append]
        have hc : (String.mk (d.data.take 8000)).length ≤ 8000 := by
          show (d.data.take 8000).length ≤ 8000
          simp
        omega
      · rw [if_neg hlen]
        omega
  · intro h1 h2
    simp [extractContext, h1, h2]
  · intro h1 h2
    have hmain : extractContext staged fileDiff docText =
        String.mk (docText.data.take 2000) := by
      simp [extractContext, h1, h2]
    refine ⟨hmain, ?_⟩
    rw [hmain]
    show (docText.data.take 2000).length ≤ 2000
    simp
  · intro d hd hlen
    subst hd
    simp [getStagedDiffResult, hlen]

/-- Closed witness for `extract_context_preference_and_caps`: a short staged
diff is used as-is and sits within the cap. -/
theorem extract_context_witness :
    extractContext (some "diff --git a/x b/x") none "doc" =
      getStagedDiffResult (some "diff --git a/x b/x") ∧
    (getStagedDiffResult (some "diff --git a/x b/x")).length ≤
      8000 + ("\n...(truncated)").length :=
  (extract_context_preference_and_caps (some "diff --git a/x b/x") none "doc").1
    (by decide)

/-! ## Change analyzer (change-analyzer module) -/

/-- `ChangeType` enum of the analyzer. -/
inductive ChangeType where
  | FEAT | FIX | REFACTOR | DOCS | STYLE | TEST | CHORE | PERF | BUILD | CI | SECURITY
deriving DecidableEq, Repr

/-- `Complexity` enum of the analyzer. -/
inductive Complexity where
  | TRIVIAL | SIMPLE | MODERATE | COMPLEX | MAJOR
deriving DecidableEq, Repr

/-- The `suggestedLength` values `'short' | 'medium' | 'detailed'`. -/
inductive MsgLength where
  | short | medium | detailed
deriving DecidableEq, Repr

/-- JS regex `\w` (ASCII word character). -/
def isWordChar (c : Char) : Bool :=
  c.isAlpha || c.isDigit || c = '_'

/-- `String.prototype.toLowerCase` on the character list (ASCII case fold,
which covers every string these predicates are applied to). -/
def toLowerChars (l : List Char) : List Char :=
  l.map Char.toLower

/-- Substring test (JS `String.prototype.includes` / an unanchored regex
literal). -/
def containsSub (needle : List Char) : List Char → Bool
  | [] => needle.isEmpty
  | c :: rest => startsWithChars needle (c :: rest) || containsSub needle rest

/-- Case-already-folded variant: does `hay` contain any of the needles? -/
def containsAny (hay : List Char) (needles : List String) : Bool :=
  needles.any (fun n => containsSub n.data hay)

/-- Suffix test (JS `String.prototype.endsWith`). -/
def endsWithChars (suf : String) (l : List Char) : Bool :=
  startsWithChars suf.data.reverse l.reverse

/-- JS `String.prototype.split('\n')`. -/
def splitNl : List Char → List (List Char)
  | [] => [[]]
  | c :: rest =>
    if c = '\n' then [] :: splitNl rest
    else
      match splitNl rest with
      | [] => [[c]]
      | l :: ls => (c :: l) :: ls

/-- Lines counted as added: `line.startsWith('+') && !line.startsWith('+++')`. -/
def countAdded (d : String) : Nat :=
  ((splitNl d.data).filter
    (fun l => startsWithChars "+".data l && !startsWithChars "+++".data l)).length

/-- Lines counted as removed: `line.startsWith('-') && !line.startsWith('---')`. -/
def countRemoved (d : String) : Nat :=
  ((splitNl d.data).filter
    (fun l => startsWithChars "-".data l && !startsWithChars "---".data l)).length

/-- Number of `/^diff --git/gm` matches: lines beginning with the per-file
diff header. -/
def countDiffHeaders (d : String) : Nat :=
  ((splitNl d.data).filter (fun l => startsWithChars "diff --git".data l)).length

/-- `determineComplexity` (change-analyzer, lines 107-116).  `Int` arguments
model the JS number arithmetic `(filesChanged - 1) * 10`, which can go
negative for `filesChanged = 0`. -/
def determineComplexity (totalChanges filesChanged : Int) : Complexity :=
  let adjusted := totalChanges + (filesChanged - 1) * 10
  if adjusted ≤ 5 then .TRIVIAL
  else if adjusted ≤ 20 then .SIMPLE
  else if adjusted ≤ 50 then .MODERATE
  else if adjusted ≤ 150 then .COMPLEX
  else .MAJOR

/-- Match a literal prefix and return the remaining characters. -/
def dropLit (pre : String) (l : List Char) : Option (List Char) :=
  if startsWithChars pre.data l then some (l.drop pre.data.length) else none

/-- Regex piece `\s+`: at least one whitespace character, consumed greedily. -/
def matchWs1 (l : List Char) : Option (List Char) :=
  match l with
  | c :: rest =>
    if c.isWhitespace then some (rest.dropWhile Char.isWhitespace) else none
  | [] => none

/-- Regex piece `\w+` consumed greedily. -/
def matchWord1 (l : List Char) : Option (List Char) :=
  match l with
  | c :: rest => if isWordChar c then some (rest.dropWhile isWordChar) else none
  | [] => none

/-- Regex alternative `const\s+\w+\s*=\s*(?:async\s*)?\(` (greedy matching is
deterministic here because the adjacent character classes are disjoint). -/
def matchConstArrow (l : List Char) : Bool :=
  (do
    let l1 ← dropLit "const" l
    let l2 ← matchWs1 l1
    let l3 ← matchWord1 l2
    let l4 := l3.dropWhile Char.isWhitespace
    let l5 ← dropLit "=" l4
    let l6 := l5.dropWhile Char.isWhitespace
    let l7 :=
      match dropLit "async" l6 with
      | some r =>
        let r2 := r.dropWhile Char.isWhitespace
        if startsWithChars "(".data r2 then r2 else l6
      | none => l6
    dropLit "(" l7).isSome

/-- Regex alternative `class\s+\w+`. -/
def matchClassSig (l : List Char) : Bool :=
  (do
    let l1 ← dropLit "class" l
    let l2 ← matchWs1 l1
    matchWord1 l2).isSome

/-- The suffixes of the text that start just after a newline character:
together with the whole text these are exactly the positions where a
multiline-`^` anchor can match. -/
def afterNlSuffixes : List Char → List (List Char)
  | [] => []
  | c :: rest =>
    if c = '\n' then rest :: afterNlSuffixes rest else afterNlSuffixes rest

/-- All `^`-anchored match positions of a `/.../m` regex: the whole text and
every position after a newline. -/
def lineStartSuffixes (l : List Char) : List (List Char) :=
  l :: afterNlSuffixes l

/-- Anchored piece `^\+\s*` of the multiline content regexes, applied to the
whole remaining text at a line-start position: JS `\s` matches the newline,
so the whitespace run (and everything after it) may cross line
boundaries. -/
def plusLineBody (l : List Char) : Option (List Char) :=
  match l with
  | '+' :: rest => some (rest.dropWhile Char.isWhitespace)
  | _ => none

/-- `/^\+\s*(function|const\s+\w+\s*=\s*(?:async\s*)?\(|class\s+\w+)/m` at one
line-start position (the suffix keeps its newlines, so `\s+`/`\s*` can run
past the end of the `+` line, exactly as the JS regex does). -/
def lineHasNewFunction (l : List Char) : Bool :=
  match plusLineBody l with
  | none => false
  | some b => startsWithChars "function".data b || matchConstArrow b || matchClassSig b

/-- `/^\+\s*class\s+\w+/m` at one line-start position. -/
def lineHasNewClass (l : List Char) : Bool :=
  match plusLineBody l with
  | none => false
  | some b => matchClassSig b

/-- `analysis.hasNewFunction`. -/
def hasNewFunctionB (d : String) : Bool :=
  (lineStartSuffixes d.data).any lineHasNewFunction

/-- `analysis.hasNewClass`. -/
def hasNewClassB (d : String) : Bool :=
  (lineStartSuffixes d.data).any lineHasNewClass

/-- `/^\+\s*(import|require|from\s+['"])/m` at one line-start position. -/
def lineHasImport (l : List Char) : Bool :=
  match plusLineBody l with
  | none => false
  | some b =>
    startsWithChars "import".data b || startsWithChars "require".data b ||
    (match dropLit "from" b with
     | some r =>
       match matchWs1 r with
       | some r2 =>
         match r2 with
         | c :: _ => c = '\'' || c = '"'
         | [] => false
       | none => false
     | none => false)

/-- `analysis.hasImportChanges`. -/
def hasImportChangesB (d : String) : Bool :=
  (lineStartSuffixes d.data).any lineHasImport

/-- One line of `/^\+.*(?:api|endpoint|route|handler)/mi`.  Unlike `\s`,
the `.` here does not match a newline, so this regex stays inside a single
line and the split-lines model is exact. -/
def lineHasApiKeyword (l : List Char) : Bool :=
  match l with
  | '+' :: rest => containsAny (toLowerChars rest) ["api", "endpoint", "route", "handler"]
  | _ => false

/-- `analysis.hasApiChanges`: content regex, or the file name mentions
`api`/`routes`. -/
def hasApiChangesB (d fileName : String) : Bool :=
  (splitNl d.data).any lineHasApiKeyword ||
  containsSub "api".data (toLowerChars fileName.data) ||
  containsSub "routes".data (toLowerChars fileName.data)

/-- `analysis.hasDependencyChanges` (file-name based). -/
def hasDependencyChangesB (fileName : String) : Bool :=
  containsAny (toLowerChars fileName.data)
    ["package.json", "requirements.txt", "cargo.toml", "go.mod"]

/-- `analysis.hasConfigChanges` (file-name based). -/
def hasConfigChangesB (fileName : String) : Bool :=
  let lf := toLowerChars fileName.data
  containsSub "config".data lf || endsWithChars ".json" lf ||
  endsWithChars ".yml" lf || endsWithChars ".yaml" lf || endsWithChars ".env" lf

/-- `analysis.hasTestChanges` (file-name based). -/
def hasTestChangesB (fileName : String) : Bool :=
  containsAny (toLowerChars fileName.data) ["test", "spec", "__tests__"]

/-- `/^-\s*export\s+/m` at one line-start position.  The trailing `\s+` is
satisfied by any whitespace character, including the newline that ends the
`-export` line itself, because the suffix keeps its newlines. -/
def lineIsRemovedExport (l : List Char) : Bool :=
  match l with
  | '-' :: rest =>
    (match dropLit "export" (rest.dropWhile Char.isWhitespace) with
     | some r =>
       match r with
       | c :: _ => c.isWhitespace
       | [] => false
     | none => false)
  | _ => false

/-- `analysis.isBreakingChange`:
`/breaking|deprecated|removed|deleted|migration/i` on the diff, or a removed
`export` line. -/
def breakingTrigger (d : String) : Bool :=
  containsAny (toLowerChars d.data)
    ["breaking", "deprecated", "removed", "deleted", "migration"] ||
  (lineStartSuffixes d.data).any lineIsRemovedExport

/-- The whitespace-only-change test `/^\+\s*$|^-\s*$/m` of the STYLE branch.
Although `\s` can match a newline, the multiline `$` only holds before a
newline or at the end, and a non-whitespace character blocks `\s*` from ever
reaching the line's own end — so the regex matches exactly when some line
consists of `+` or `-` followed by whitespace only, and the split-lines model
is exact. -/
def styleOnlyTrigger (d : String) : Bool :=
  (splitNl d.data).any (fun l =>
    match l with
    | '+' :: rest => rest.all Char.isWhitespace
    | '-' :: rest => rest.all Char.isWhitespace
    | _ => false)

/-- The `#\d+` alternative of the fix regex: a hash immediately followed by a
digit. -/
def containsHashDigit : List Char → Bool
  | [] => false
  | '#' :: c :: rest => c.isDigit || containsHashDigit (c :: rest)
  | _ :: rest => containsHashDigit rest

/-- The FIX branch tests
`/fix|bug|error|issue|crash|problem/i.test(lowerDiff) ||
/fix|bug|issue|#\d+/i.test(diffText)`. -/
def fixKeywordTrigger (d : String) : Bool :=
  containsAny (toLowerChars d.data) ["fix", "bug", "error", "issue", "crash", "problem"] ||
  containsAny (toLowerChars d.data) ["fix", "bug", "issue"] ||
  containsHashDigit d.data

/-- The PERF branch keyword test. -/
def perfKeywordTrigger (d : String) : Bool :=
  containsAny (toLowerChars d.data)
    ["perf", "performance", "optimize", "faster", "speed", "cache"]

/-- The SECURITY branch keyword test
`/security|vuln|cve|auth|permission|sanitize/i`. -/
def securityKeywordTrigger (d : String) : Bool :=
  containsAny (toLowerChars d.data)
    ["security", "vuln", "cve", "auth", "permission", "sanitize"]

/-- The DOCS file test of `detectChangeType`. -/
def docsFileTrigger (fileName : String) : Bool :=
  let lf := toLowerChars fileName.data
  endsWithChars ".md" lf || containsSub "readme".data lf ||
  containsSub "docs/".data lf || containsSub "documentation".data lf

/-- The CI file test of `detectChangeType`. -/
def ciFileTrigger (fileName : String) : Bool :=
  let lf := toLowerChars fileName.data
  containsSub ".github/".data lf || containsSub "jenkins".data lf ||
  containsSub "gitlab-ci".data lf || containsSub "circleci".data lf

/-- The BUILD file test of `detectChangeType`. -/
def buildFileTrigger (fileName : String) : Bool :=
  let lf := toLowerChars fileName.data
  containsSub "webpack".data lf || containsSub "vite".data lf ||
  containsSub "rollup".data lf || containsSub "dockerfile".data lf ||
  containsSub "makefile".data lf

/-- `detectChangeType` (change-analyzer, lines 185-256), with the fields of
the partially-built analysis passed explicitly.  The refactor test
`linesRemoved > linesAdded * 0.5` is the integer-exact
`2 * linesRemoved > linesAdded`. -/
def detectChangeType (diffText fileName : String)
    (hasTest hasNewFun hasNewCls : Bool)
    (totalChanges linesAdded linesRemoved : Nat) : ChangeType :=
  if hasTest then .TEST
  else if docsFileTrigger fileName then .DOCS
  else if ciFileTrigger fileName then .CI
  else if buildFileTrigger fileName then .BUILD
  else if totalChanges < 10 && !hasNewFun && styleOnlyTrigger diffText then .STYLE
  else if fixKeywordTrigger diffText then .FIX
  else if perfKeywordTrigger diffText then .PERF
  else if securityKeywordTrigger diffText then .SECURITY
  else if 2 * linesRemoved > linesAdded && !hasNewFun && !hasNewCls then .REFACTOR
  else if hasNewFun || hasNewCls || linesAdded > 20 then .FEAT
  else if totalChanges > 15 then .FEAT
  else .CHORE

/-- Regex piece `[/\\]` followed by a captured `\w+`: returns the captured
word. -/
def slashThenWord (l : List Char) : Option (List Char) :=
  match l with
  | c :: rest =>
    if c = '/' || c = '\\' then
      let w := rest.takeWhile isWordChar
      if w.isEmpty then none else some w
    else none
  | [] => none

/-- Try `key` (optionally pluralised when `allowS`) followed by a slash and a
captured word at the head of `l`, as in `/components?[/\\](\w+)/i`. -/
def keySlashWordAt (key : List Char) (allowS : Bool) (l : List Char) :
    Option (List Char) :=
  if startsWithChars key l then
    let rest := l.drop key.length
    match rest with
    | 's' :: rest2 =>
      if allowS then
        match slashThenWord rest2 with
        | some w => some w
        | none => slashThenWord rest
      else slashThenWord rest
    | _ => slashThenWord rest
  else none

/-- Leftmost match of `key(s?)[/\\](\w+)` anywhere in the path. -/
def findKeySlashWord (key : String) (allowS : Bool) : List Char → Option (List Char)
  | [] => none
  | c :: rest =>
    match keySlashWordAt key.data allowS (c :: rest) with
    | some w => some w
    | none => findKeySlashWord key allowS rest

/-- Containment test for the fixed-scope patterns `key(s?)[/\\]`. -/
def hasKeySlash (key : String) (allowS : Bool) : List Char → Bool
  | [] => false
  | c :: rest =>
    (if startsWithChars key.data (c :: rest) then
      (match (c :: rest).drop key.data.length with
       | 's' :: rest2 =>
         (allowS && (match rest2 with
                     | c2 :: _ => c2 = '/' || c2 = '\\'
                     | [] => false)) ||
         (match ('s' :: rest2 : List Char) with
          | c2 :: _ => c2 = '/' || c2 = '\\'
          | [] => false)
       | c2 :: _ => c2 = '/' || c2 = '\\'
       | [] => false)
     else false) ||
    hasKeySlash key allowS rest

/-- `fileName.split('.').pop()`: the final dot-separated segment (the whole
name when there is no dot). -/
def lastDotSegment (l : List Char) : List Char :=
  (l.reverse.takeWhile (fun c => c ≠ '.')).reverse

/-- `extractScope` (change-analyzer, lines 261-297): the ordered pattern
table over the lower-cased path, then the extension fallback. -/
def extractScope (fileName : String) : Option String :=
  if fileName = "" then none
  else
    let lowerPath := toLowerChars fileName.data
    match findKeySlashWord "component" true lowerPath with
    | some w => some (String.mk w)
    | none =>
    match findKeySlashWord "module" true lowerPath with
    | some w => some (String.mk w)
    | none =>
    match findKeySlashWord "service" true lowerPath with
    | some w => some (String.mk w)
    | none =>
    match findKeySlashWord "api" false lowerPath with
    | some w => some (String.mk w)
    | none =>
    match findKeySlashWord "page" true lowerPath with
    | some w => some (String.mk w)
    | none =>
    match findKeySlashWord "view" true lowerPath with
    | some w => some (String.mk w)
    | none =>
    if hasKeySlash "util" true lowerPath then some "utils"
    else if hasKeySlash "helper" true lowerPath then some "helpers"
    else if hasKeySlash "hook" true lowerPath then some "hooks"
    else if hasKeySlash "store" false lowerPath then some "store"
    else if containsSub "auth".data lowerPath then some "auth"
    else if containsSub "config".data lowerPath then some "config"
    else if containsSub "test".data lowerPath || containsSub "spec".data lowerPath then
      some "test"
    else if hasKeySlash "doc" true lowerPath then some "docs"
    else
      let ext := toLowerChars (lastDotSegment fileName.data)
      if ext = "css".data || ext = "scss".data || ext = "sass".data then some "styles"
      else if ext = "md".data then some "docs"
      else none

/-- `determineSuggestedLength` (change-analyzer, lines 302-325), with the
fields it reads passed explicitly. -/
def determineSuggestedLength (isBreaking : Bool) (complexity : Complexity)
    (hasNewFun : Bool) : MsgLength :=
  if isBreaking then .detailed
  else
    match complexity with
    | .TRIVIAL => .short
    | .SIMPLE => if hasNewFun then .medium else .short
    | .MODERATE => .medium
    | .COMPLEX => .detailed
    | .MAJOR => .detailed

/-- The analysis record returned by `analyzeDiff` (the `keywords` array,
which no consumer modelled here reads, is omitted). -/
structure ChangeAnalysis where
  linesAdded : Nat
  linesRemoved : Nat
  totalChanges : Nat
  filesChanged : Nat
  complexity : Complexity
  changeType : ChangeType
  scope : Option String
  isBreakingChange : Bool
  hasNewFunction : Bool
  hasNewClass : Bool
  hasImportChanges : Bool
  hasDependencyChanges : Bool
  hasApiChanges : Bool
  hasConfigChanges : Bool
  hasTestChanges : Bool
  suggestedLength : MsgLength
deriving DecidableEq, Repr

/-- The field defaults the analyzer starts from (returned unchanged for an
empty diff). -/
def defaultAnalysis : ChangeAnalysis where
  linesAdded := 0
  linesRemoved := 0
  totalChanges := 0
  filesChanged := 1
  complexity := .TRIVIAL
  changeType := .CHORE
  scope := none
  isBreakingChange := false
  hasNewFunction := false
  hasNewClass := false
  hasImportChanges := false
  hasDependencyChanges := false
  hasApiChanges := false
  hasConfigChanges := false
  hasTestChanges := false
  suggestedLength := .short

/-- `analyzeDiff` (change-analyzer, lines 42-102). -/
def analyzeDiff (diffText fileName : String) : ChangeAnalysis :=
  if diffText = "" then defaultAnalysis
  else
    let a := countAdded diffText
    let r := countRemoved diffText
    let total := a + r
    let headers := countDiffHeaders diffText
    let fc := if headers = 0 then 1 else headers
    let complexity := determineComplexity (Int.ofNat total) (Int.ofNat fc)
    let hasNewFun := hasNewFunctionB diffText
    let hasNewCls := hasNewClassB diffText
    let hasTest := hasTestChangesB fileName
    let breaking := breakingTrigger diffText
    { linesAdded := a
      linesRemoved := r
      totalChanges := total
      filesChanged := fc
      complexity := complexity
      changeType := detectChangeType diffText fileName hasTest hasNewFun hasNewCls total a r
      scope := extractScope fileName
      isBreakingChange := breaking
      hasNewFunction := hasNewFun
      hasNewClass := hasNewCls
      hasImportChanges := hasImportChangesB diffText
      hasDependencyChanges := hasDependencyChangesB fileName
      hasApiChanges := hasApiChangesB diffText fileName
      hasConfigChanges := hasConfigChangesB fileName
      hasTestChanges := hasTest
      suggestedLength := determineSuggestedLength breaking complexity hasNewFun }

/-- Linear order rank of the complexity tiers, used to state monotonicity. -/
def complexityRank : Complexity → Nat
  | .TRIVIAL => 0
  | .SIMPLE => 1
  | .MODERATE => 2
  | .COMPLEX => 3
  | .MAJOR => 4

/-- C8: every analysis satisfies `linesAdded + linesRemoved = totalChanges`,
and for a fixed `filesChanged` the complexity tier computed from
`totalChanges + (filesChanged - 1) * 10` is monotonically non-decreasing in
`totalChanges`. -/
theorem analysis_sum_and_complexity_monotone :
    (∀ d fn, (analyzeDiff d fn).linesAdded + (analyzeDiff d fn).linesRemoved =
      (analyzeDiff d fn).totalChanges) ∧
    (∀ (fc t t' : Int), t ≤ t' →
      complexityRank (determineComplexity t fc) ≤
        complexityRank (determineComplexity t' fc)) := by
  constructor
  · intro d fn
    by_cases hd : d = ""
    · simp [analyzeDiff, hd, defaultAnalysis]
    · simp [analyzeDiff, hd]
  · intro fc t t' h
    simp only [determineComplexity]
    split_ifs <;> first | decide | (exfalso; omega)

/-- Closed witness for `analysis_sum_and_complexity_monotone`: the sum
identity on a concrete diff and the tier monotonicity at `3 ≤ 30`. -/
theorem analysis_sum_and_complexity_monotone_witness :
    ((analyzeDiff "+a\n-b" "x.ts").linesAdded + (analyzeDiff "+a\n-b" "x.ts").linesRemoved =
      (analyzeDiff "+a\n-b" "x.ts").totalChanges) ∧
    complexityRank (determineComplexity 3 1) ≤ complexityRank (determineComplexity 30 1) :=
  ⟨analysis_sum_and_complexity_monotone.1 "+a\n-b" "x.ts",
   analysis_sum_and_complexity_monotone.2 1 3 30 (by decide)⟩

/-- The `\s+` of `/^-\s*export\s+/m` may be satisfied by the newline ending
the `-export` line: on this +3/−1 diff the code flags a breaking change (and
hence a detailed suggested length), so the diff falls outside the
breaking-trigger hypothesis of the amended Scenario A. -/
theorem breakingTrigger_matches_across_newline :
    breakingTrigger "-export\n+a\n+b\n+c" = true := by decide

/-- The `\s+` after `const` in the new-function regex may cross a line
boundary: on this +3/−1 diff the code sets `hasNewFunction` (and detects a
feature), so the diff falls outside the new-function hypothesis of the
amended Scenario A. -/
theorem hasNewFunction_matches_across_newline :
    hasNewFunctionB "+const \nx = (\n+a\n+b\n-c" = true := by decide

/-- JS `\p{L}`/`\p{N}` membership as used by `stripEmoji`; modelled as ASCII
letter-or-digit, which is exact on the ASCII-plus-emoji template strings this
code handles. -/
def jsLetterOrDigit (c : Char) : Bool :=
  c.isAlpha || c.isDigit

/-- JS `String.prototype.trim` on a character list. -/
def trimChars (l : List Char) : List Char :=
  ((l.dropWhile Char.isWhitespace).reverse.dropWhile Char.isWhitespace).reverse

/-- `stripEmoji` (stats.js, lines 191-201): the four anchored replaces
(three emoji/symbol ranges then `^[^\p{L}\p{N}]+ *`, each with a trailing
space run) compose to dropping every leading non-letter/digit character
(emoji and spaces included), followed by the final `.trim()`. -/
def stripEmoji (s : String) : String :=
  String.mk (trimChars (s.data.dropWhile (fun c => !(jsLetterOrDigit c))))

/-- The template table shape of `commit-messages.json` /
`loadMessages()`. -/
structure MessagesTable where
  byFilename : List (String × List String)
  byPath : List (String × List String)
  byExtension : List (String × List String)
  generic : List String
  multiFile : List String

/-- The hard-coded fallback table in the `catch` branch of `loadMessages`
(the packaged `commit-messages.json` itself is not among the sources, so the
theorems below take the table as a parameter). -/
def fallbackMessages : MessagesTable where
  byFilename := []
  byPath := []
  byExtension := []
  generic := ["✨ Update code", "🔧 Minor changes", "📝 Small update"]
  multiFile := ["✨ Update multiple files", "🔧 Batch changes"]

/-- `pickRandom(xs) || dflt`: a missing pick and an empty-string pick both
fall back to the default. -/
def jsOrDefault (o : Option String) (dflt : String) : String :=
  match o with
  | some s => if s = "" then dflt else s
  | none => dflt

/-- Node `path.basename` (posix rules: trailing separators stripped, then
the segment after the last `/`). -/
def jsBasename (p : String) : String :=
  let r := p.data.reverse.dropWhile (fun c => c = '/')
  String.mk (r.takeWhile (fun c => c ≠ '/')).reverse

/-- Node `path.extname`: the suffix from the final dot of the basename,
empty for dotless names and leading-dot files. -/
def jsExtname (p : String) : String :=
  let base := (jsBasename p).data
  if base.contains '.' then
    let suffix := '.' :: (base.reverse.takeWhile (fun c => c ≠ '.')).reverse
    if suffix.length = base.length then "" else String.mk suffix
  else ""

/-- `useEmoji ? msg : stripEmoji(msg)` applied at every return of
`getSmartMessage`. -/
def emojiAdjust (useEmoji : Bool) (msg : String) : String :=
  if useEmoji then msg else stripEmoji msg

/-- Association lookup in the template table (JS bracket access). -/
def lookupTemplates : List (String × List String) → String → Option (List String)
  | [], _ => none
  | (k, v) :: rest, key => if k = key then some v else lookupTemplates rest key

/-- The `byFilename` loop of `getSmartMessage`: first entry whose
lower-cased name equals or occurs in the lower-cased basename and whose pick
is truthy. -/
def firstFilenameMatch (pickFn : List String → Option String) (fileName : String) :
    List (String × List String) → Option String
  | [] => none
  | (name, msgList) :: rest =>
    let lname := String.mk (toLowerChars name.data)
    if fileName = lname || containsSub lname.data fileName.data then
      match pickFn msgList with
      | some m =>
        if m = "" then firstFilenameMatch pickFn fileName rest else some m
      | none => firstFilenameMatch pickFn fileName rest
    else firstFilenameMatch pickFn fileName rest

/-- The `byPath` loop of `getSmartMessage`: first entry whose key occurs
slash-delimited in the lower-cased full path and whose pick is truthy. -/
def firstPathMatch (pickFn : List String → Option String) (dirPath : String) :
    List (String × List String) → Option String
  | [] => none
  | (pathKey, msgList) :: rest =>
    if containsSub ("/" ++ pathKey ++ "/").data dirPath.data ||
        containsSub ("\\" ++ pathKey ++ "\\").data dirPath.data then
      match pickFn msgList with
      | some m =>
        if m = "" then firstPathMatch pickFn dirPath rest else some m
      | none => firstPathMatch pickFn dirPath rest
    else firstPathMatch pickFn dirPath rest

/-- `getSmartMessage` (stats.js, lines 211-251).  The `Math.random` draw of
`pickRandom` is abstracted as the oracle `pickFn` (a concrete valid
instantiation is `List.head?`); everything else follows the source: the
multi-file branch, then filename, path and extension layers, then the generic
pool with its `"Update code"` default. -/
def getSmartMessage (pickFn : List String → Option String) (messages : MessagesTable)
    (filePath : String) (useEmoji isMultiFile : Bool) : String :=
  if isMultiFile then
    emojiAdjust useEmoji (jsOrDefault (pickFn messages.multiFile) "✨ Update multiple files")
  else
    let fileName := String.mk (toLowerChars (jsBasename filePath).data)
    let ext := String.mk (toLowerChars (jsExtname filePath).data)
    let dirPath := String.mk (toLowerChars filePath.data)
    let generic := emojiAdjust useEmoji (jsOrDefault (pickFn messages.generic) "Update code")
    match firstFilenameMatch pickFn fileName messages.byFilename with
    | some m => emojiAdjust useEmoji m
    | none =>
      match firstPathMatch pickFn dirPath messages.byPath with
      | some m => emojiAdjust useEmoji m
      | none =>
        match lookupTemplates messages.byExtension ext with
        | some extMessages =>
          if extMessages.length > 0 then
            match pickFn extMessages with
            | some m => if m = "" then generic else emojiAdjust useEmoji m
            | none => generic
          else generic
        | none => generic

/-- `getSmartMessageWithFile` (stats.js, lines 259-269): append the base
filename unless the picked message already mentions it
(case-insensitively). -/
def getSmartMessageWithFile (pickFn : List String → Option String)
    (messages : MessagesTable) (filePath : String) (useEmoji isMultiFile : Bool) :
    String :=
  let baseMsg := getSmartMessage pickFn messages filePath useEmoji isMultiFile
  let fileName := jsBasename filePath
  if containsSub (toLowerChars fileName.data) (toLowerChars baseMsg.data) then baseMsg
  else baseMsg ++ ": " ++ fileName

/-! ## AI service (ai-service module) and the handleSave message selection -/

/-- `API_CONFIG.timeout`: the request timeout in milliseconds. -/
def API_CONFIG_timeoutMs : Nat := 15000

/-- The decoded response-body shapes `parseResponse` distinguishes:
a `JSON.parse` failure, the `{error:{message}}` shape (empty string models a
missing message), or the `choices[0].message.content` field (`none` when the
path is absent). -/
inductive ParsedBody where
  | malformed
  | apiError (msg : String)
  | choices (content : Option String)
deriving DecidableEq, Repr

/-- The per-line cleanup of `parseResponse`: strip surrounding
quote/backtick runs, surrounding asterisk runs, a leading markdown-header
marker, then trim. -/
def cleanLine (l : List Char) : List Char :=
  let isQuote : Char → Bool := fun c => c = '"' || c = Char.ofNat 39 || c = Char.ofNat 96
  let l1 := ((l.dropWhile isQuote).reverse.dropWhile isQuote).reverse
  let l2 := ((l1.dropWhile (fun c => c = '*')).reverse.dropWhile (fun c => c = '*')).reverse
  let l3 :=
    if l2.head? = some '#' then (l2.dropWhile (fun c => c = '#')).dropWhile Char.isWhitespace
    else l2
  trimChars l3

/-- `lines.slice(1,5).join('\n')`. -/
def joinNl : List (List Char) → List Char
  | [] => []
  | [l] => l
  | l :: rest => l ++ '\n' :: joinNl rest

/-- `parseResponse` (ai-service, lines 129-171): reject error shapes and
empty content, split the content into cleaned non-empty lines, ellipsis-cap
the subject at 72 characters, and keep at most four body lines. -/
def parseResponse (body : ParsedBody) : Except String String :=
  match body with
  | .malformed => .error "SyntaxError"
  | .apiError m => .error (if m = "" then "API error" else m)
  | .choices content =>
    let raw := trimChars (content.getD "").data
    if raw.isEmpty then .error "Empty response from API"
    else
      let lines := ((splitNl raw).map cleanLine).filter (fun l => !l.isEmpty)
      let subject0 := lines.headD []
      let subject :=
        if subject0.length > 72 then subject0.take 69 ++ "...".data else subject0
      let bodyJoined := joinNl ((lines.drop 1).take 4)
      if bodyJoined.isEmpty then .ok (String.mk subject)
      else .ok (String.mk (subject ++ '\n' :: '\n' :: bodyJoined))

/-- The observable outcomes of the HTTPS request in `makeAPIRequest`:
a network error, the 15s timeout, or a response with a status code and a
body. -/
inductive HttpResult where
  | netError (msg : String)
  | timeout
  | response (status : Nat) (body : ParsedBody)
deriving DecidableEq, Repr

/-- `generateCommitMessage` = `parseResponse(await makeAPIRequest(...))`:
network errors and timeouts reject, a non-2xx status rejects with
`HTTP <status>`, a 2xx response is parsed. -/
def generateCommitMessage (hr : HttpResult) : Except String String :=
  match hr with
  | .netError m => .error m
  | .timeout => .error "Request timeout"
  | .response st body =>
    if st < 200 ∨ 300 ≤ st then .error ("HTTP " ++ toString st)
    else parseResponse body

/-- The backend-failure conditions enumerated by the spec: network error,
timeout, non-2xx status, or malformed/error-shaped/empty response body. -/
def aiBackendFailed (hr : HttpResult) : Bool :=
  match hr with
  | .netError _ => true
  | .timeout => true
  | .response st body =>
    decide (st < 200 ∨ 300 ≤ st) ||
    (match body with
     | .malformed => true
     | .apiError _ => true
     | .choices c => (trimChars (c.getD "").data).isEmpty)

/-- The message-selection logic of `handleSave` (part_002, lines
1098-1171): the deterministic fallback is computed first; `none` models "AI
disabled or no key", a caught generation error keeps the fallback, and a
generated result — after the forced emoji strip when emoji are off —
replaces the fallback only when non-empty (`message = generated ||
message`). -/
def selectMessage (fallback : String) (useEmoji : Bool)
    (ai : Option (Except String String)) : String :=
  match ai with
  | none => fallback
  | some (Except.error _) => fallback
  | some (Except.ok generated) =>
    let g := if generated ≠ "" && !useEmoji then stripEmoji generated else generated
    if g = "" then fallback else g

/-- A string differs from `""` exactly when its character list is
non-empty. -/
theorem string_ne_empty_iff (s : String) : s ≠ "" ↔ s.data ≠ [] := by
  constructor
  · intro h hd
    exact h (by cases s; simp_all)
  · intro h hs
    exact h (by rw [hs])

/-- The deterministic fallback of `handleSave` is never empty: either the
picked template is non-empty, or the `": <basename>"` suffix makes the result
non-empty (for any save event the saved document has a non-empty
basename). -/
theorem getSmartMessageWithFile_ne_blank (pickFn : List String → Option String)
    (messages : MessagesTable) (filePath : String) (useEmoji isMultiFile : Bool)
    (hbase : jsBasename filePath ≠ "") :
    getSmartMessageWithFile pickFn messages filePath useEmoji isMultiFile ≠ "" := by
  have hbd : (jsBasename filePath).data ≠ [] := (string_ne_empty_iff _).1 hbase
  simp only [getSmartMessageWithFile]
  by_cases hcont : containsSub (toLowerChars (jsBasename filePath).data)
      (toLowerChars (getSmartMessage pickFn messages filePath useEmoji isMultiFile).data)
  · rw [if_pos hcont]
    intro hb
    rw [hb] at hcont
    simp only [show ("" : String).data = [] from rfl, toLowerChars, List.map_nil,
      containsSub] at hcont
    exact hbd (by simpa [toLowerChars] using hcont)
  · rw [if_neg hcont]
    intro h
    have hd := congrArg String.data h
    simp [String.data_append] at hd

/-- C10: the commit message passed to `buildCommitCommand` is always a
non-empty string — the deterministic picker plus filename suffix is
non-empty for every save event (non-empty basename), and an AI-generated
result replaces the fallback only when the processed result is itself
non-empty. -/
theorem commit_message_nonempty (pickFn : List String → Option String)
    (messages : MessagesTable) (filePath : String) (useEmoji isMultiFile : Bool)
    (ai : Option (Except String String))
    (hbase : jsBasename filePath ≠ "") :
    selectMessage (getSmartMessageWithFile pickFn messages filePath useEmoji isMultiFile)
      useEmoji ai ≠ "" ∧
    (∀ (fallback : String) (ue : Bool) (ai2 : Option (Except String String)),
      selectMessage fallback ue ai2 ≠ fallback →
      ∃ g, ai2 = some (Except.ok g) ∧ g ≠ "") := by
  constructor
  · have hfb := getSmartMessageWithFile_ne_blank pickFn messages filePath useEmoji
      isMultiFile hbase
    cases ai with
    | none => simpa [selectMessage] using hfb
    | some r =>
      cases r with
      | error e => simpa [selectMessage] using hfb
      | ok g =>
        simp only [selectMessage]
        split <;> split <;> first | exact hfb | assumption
  · intro fb ue ai2 hneq
    cases ai2 with
    | none => simp [selectMessage] at hneq
    | some r =>
      cases r with
      | error e => simp [selectMessage] at hneq
      | ok g =>
        refine ⟨g, rfl, ?_⟩
        intro hge
        subst hge
        simp [selectMessage] at hneq

/-- Closed witness for `commit_message_nonempty`: even an empty AI result on
top of the fallback table leaves a non-empty message. -/
theorem commit_message_nonempty_witness :
    selectMessage (getSmartMessageWithFile List.head? fallbackMessages "/r/a.txt" true false)
      true (some (Except.ok "")) ≠ "" :=
  (commit_message_nonempty List.head? fallbackMessages "/r/a.txt" true false
    (some (Except.ok "")) (by decide)).1

/-- C5: every failure of the generation backend — network error, the 15s
timeout, a non-2xx status such as 500, or a malformed/empty/error-shaped
body — surfaces as a caught `Except.error`; the selected message is then the
deterministic fallback, which is non-empty, and the executor still receives
a command sequence containing the commit for that fallback (the commit
proceeds). -/
theorem generation_failure_falls_back (hr : HttpResult)
    (pickFn : List String → Option String) (messages : MessagesTable)
    (filePath branch : String) (useEmoji isMultiFile push : Bool)
    (hbase : jsBasename filePath ≠ "")
    (hfail : aiBackendFailed hr = true) :
    (∃ e, generateCommitMessage hr = Except.error e) ∧
    selectMessage (getSmartMessageWithFile pickFn messages filePath useEmoji isMultiFile)
        useEmoji (some (generateCommitMessage hr)) =
      getSmartMessageWithFile pickFn messages filePath useEmoji isMultiFile ∧
    getSmartMessageWithFile pickFn messages filePath useEmoji isMultiFile ≠ "" ∧
    ("git commit -m \"" ++
        escapeMessage (getSmartMessageWithFile pickFn messages filePath useEmoji isMultiFile) ++
        "\" || echo \"nothing to commit\"") ∈
      buildCommitCommands
        (selectMessage (getSmartMessageWithFile pickFn messages filePath useEmoji isMultiFile)
          useEmoji (some (generateCommitMessage hr))) branch push := by
  obtain ⟨e, he⟩ : ∃ e, generateCommitMessage hr = Except.error e := by
    cases hr with
    | netError m => exact ⟨m, rfl⟩
    | timeout => exact ⟨"Request timeout", rfl⟩
    | response st body =>
      by_cases hst : st < 200 ∨ 300 ≤ st
      · exact ⟨"HTTP " ++ toString st, by simp [generateCommitMessage, hst]⟩
      · cases body with
        | malformed =>
          exact ⟨"SyntaxError", by simp [generateCommitMessage, hst, parseResponse]⟩
        | apiError m =>
          exact ⟨if m = "" then "API error" else m,
            by simp [generateCommitMessage, hst, parseResponse]⟩
        | choices c =>
          have hempty : (trimChars (c.getD "").data).isEmpty = true := by
            simpa [aiBackendFailed, hst] using hfail
          exact ⟨"Empty response from API",
            by simp [generateCommitMessage, hst, parseResponse, hempty]⟩
  have hsel : selectMessage
      (getSmartMessageWithFile pickFn messages filePath useEmoji isMultiFile)
      useEmoji (some (generateCommitMessage hr)) =
      getSmartMessageWithFile pickFn messages filePath useEmoji isMultiFile := by
    rw [he]
    rfl
  refine ⟨⟨e, he⟩, hsel,
    getSmartMessageWithFile_ne_blank pickFn messages filePath useEmoji isMultiFile hbase,
    ?_⟩
  rw [hsel]
  simp [buildCommitCommands]

/-- Closed witness for `generation_failure_falls_back` at an HTTP 500
response. -/
theorem generation_failure_falls_back_witness :
    (∃ e, generateCommitMessage (HttpResult.response 500 (ParsedBody.choices none)) =
      Except.error e) ∧
    selectMessage (getSmartMessageWithFile List.head? fallbackMessages "/r/a.txt" true false)
        true (some (generateCommitMessage
          (HttpResult.response 500 (ParsedBody.choices none)))) =
      getSmartMessageWithFile List.head? fallbackMessages "/r/a.txt" true false ∧
    getSmartMessageWithFile List.head? fallbackMessages "/r/a.txt" true false ≠ "" ∧
    ("git commit -m \"" ++
        escapeMessage (getSmartMessageWithFile List.head? fallbackMessages "/r/a.txt" true false) ++
        "\" || echo \"nothing to commit\"") ∈
      buildCommitCommands
        (selectMessage (getSmartMessageWithFile List.head? fallbackMessages "/r/a.txt" true false)
          true (some (generateCommitMessage
            (HttpResult.response 500 (ParsedBody.choices none))))) "main" false :=
  generation_failure_falls_back (HttpResult.response 500 (ParsedBody.choices none))
    List.head? fallbackMessages "/r/a.txt" "main" true false false (by decide) (by decide)

/-- The first line of a message (up to the first newline). -/
def firstLineChars (l : List Char) : List Char :=
  l.takeWhile (fun c => c ≠ '\n')

/-- Every double quote in the list is immediately preceded by a backslash
(the sense in which the executor's escaping leaves no unescaped quote):
`prevBackslash` records whether the previous character was a backslash. -/
def quotesEscapedFrom (prevBackslash : Bool) : List Char → Bool
  | [] => true
  | c :: rest =>
    if c = '"' then prevBackslash && quotesEscapedFrom false rest
    else quotesEscapedFrom (c = '\\') rest

/-- A character list with no unescaped double quote. -/
def quotesEscaped (l : List Char) : Bool :=
  quotesEscapedFrom false l

/-- After the quote-escaping pass every quote is backslash-escaped,
whatever character precedes the list. -/
theorem quotesEscapedFrom_escapeQuotes (l : List Char) :
    ∀ b, quotesEscapedFrom b (escapeQuotes l) = true := by
  induction l with
  | nil => intro b; rfl
  | cons c rest ih =>
    intro b
    by_cases h : c = '"'
    · subst h
      simp [escapeQuotes, quotesEscapedFrom, ih false]
    · simp [escapeQuotes, quotesEscapedFrom, h, ih (c = '\\')]

/-- The dollar-escaping pass preserves the quotes-escaped property. -/
theorem quotesEscapedFrom_escapeDollars (l : List Char) :
    ∀ b, quotesEscapedFrom b l = true → quotesEscapedFrom b (escapeDollars l) = true := by
  induction l with
  | nil => intro b h; exact h
  | cons c rest ih =>
    intro b h
    by_cases hq : c = '"'
    · subst hq
      simp [quotesEscapedFrom] at h
      have hout : escapeDollars ('"' :: rest) = '"' :: escapeDollars rest := by
        simp [escapeDollars]
      rw [hout]
      simp [quotesEscapedFrom, h.1, ih false h.2]
    · by_cases hd : c = '$'
      · subst hd
        have hrest : quotesEscapedFrom false rest = true := by
          simpa [quotesEscapedFrom] using h
        simp [escapeDollars, quotesEscapedFrom, ih false hrest]
      · have hrest : quotesEscapedFrom (c = '\\') rest = true := by
          simpa [quotesEscapedFrom, hq] using h
        have hout : escapeDollars (c :: rest) = c :: escapeDollars rest := by
          simp [escapeDollars, hd]
        rw [hout]
        simpa [quotesEscapedFrom, hq] using ih (c = '\\') hrest

/-- `split('\n')` never returns an empty list of lines. -/
theorem splitNl_ne_nil (l : List Char) : splitNl l ≠ [] := by
  induction l with
  | nil => simp [splitNl]
  | cons c rest ih =>
    by_cases h : c = '\n'
    · simp [splitNl, h]
    · simp only [splitNl, if_neg h]
      cases hx : splitNl rest with
      | nil => simp
      | cons a as => simp

/-- No piece of `split('\n')` contains a newline. -/
theorem no_nl_of_mem_splitNl (l : List Char) :
    ∀ s ∈ splitNl l, '\n' ∉ s := by
  induction l with
  | nil =>
    intro s hs
    simp [splitNl] at hs
    subst hs
    simp
  | cons c rest ih =>
    intro s hs
    by_cases h : c = '\n'
    · simp only [splitNl, if_pos h, List.mem_cons] at hs
      rcases hs with rfl | hs
      · simp
      · exact ih s hs
    · simp only [splitNl, if_neg h] at hs
      cases hx : splitNl rest with
      | nil => exact absurd hx (splitNl_ne_nil rest)
      | cons a as =>
        rw [hx] at hs
        simp only [List.mem_cons] at hs
        rcases hs with rfl | hs
        · intro hmem
          rcases List.mem_cons.mp hmem with hc | hmem2
          · exact h hc.symm
          · exact ih a (by rw [hx]; exact List.mem_cons_self a as) hmem2
        · exact ih s (by rw [hx]; exact List.mem_cons_of_mem a hs)

/-- Characters of `trimChars l` come from `l`. -/
theorem mem_of_mem_trimChars {a : Char} {l : List Char} (h : a ∈ trimChars l) :
    a ∈ l := by
  unfold trimChars at h
  have h1 := List.mem_reverse.mp h
  have h2 := (List.dropWhile_sublist _).subset h1
  have h3 := List.mem_reverse.mp h2
  exact (List.dropWhile_sublist _).subset h3

/-- Characters of a cleaned line come from the original line. -/
theorem mem_of_mem_cleanLine {a : Char} {l : List Char} (h : a ∈ cleanLine l) :
    a ∈ l := by
  simp only [cleanLine] at h
  have h3 := mem_of_mem_trimChars h
  have hsub2 : ∀ (cls : Char → Bool) (m : List Char) (x : Char),
      x ∈ ((m.dropWhile cls).reverse.dropWhile cls).reverse → x ∈ m := by
    intro cls m x hx
    have h1 := List.mem_reverse.mp hx
    have h2 := (List.dropWhile_sublist _).subset h1
    have hr := List.mem_reverse.mp h2
    exact (List.dropWhile_sublist _).subset hr
  split at h3
  · have hdrop := (List.dropWhile_sublist _).subset
      ((List.dropWhile_sublist _).subset h3)
    exact hsub2 _ _ _ (hsub2 _ _ _ hdrop)
  · exact hsub2 _ _ _ (hsub2 _ _ _ h3)

/-- `firstLineChars` is the identity on newline-free lists. -/
theorem firstLineChars_of_no_nl (s : List Char) (h : '\n' ∉ s) :
    firstLineChars s = s := by
  induction s with
  | nil => rfl
  | cons c rest ih =>
    have hc : ¬ c = '\n' := fun hh => h (hh ▸ List.mem_cons_self c rest)
    have hrest : '\n' ∉ rest := fun hh => h (List.mem_cons_of_mem _ hh)
    simp [firstLineChars, List.takeWhile_cons, hc]
    simpa [firstLineChars] using ih hrest

/-- `firstLineChars` cuts a newline-free prefix off at the first newline. -/
theorem firstLineChars_append_nl (s t : List Char) (h : '\n' ∉ s) :
    firstLineChars (s ++ '\n' :: t) = s := by
  induction s with
  | nil => simp [firstLineChars]
  | cons c rest ih =>
    have hc : ¬ c = '\n' := fun hh => h (hh ▸ List.mem_cons_self c rest)
    have hrest : '\n' ∉ rest := fun hh => h (List.mem_cons_of_mem _ hh)
    simp only [List.cons_append, firstLineChars, List.takeWhile_cons]
    simp [hc]
    simpa [firstLineChars] using ih hrest

/-- C6 amended: every commit message produced by the generative path's
`parseResponse` has a subject line (its first line) of at most 72
characters; and for every message, the executor's escaping leaves no
unescaped double quote, while the subject line never contains a raw
newline.  (The deterministic fallback path does NOT enforce the 72-character
bound — see the counterexample theorem.) -/
theorem composer_subject_bounds :
    (∀ (b : ParsedBody) (msg : String), parseResponse b = Except.ok msg →
      (firstLineChars msg.data).length ≤ 72) ∧
    (∀ m : String, quotesEscaped (escapeMessage m).data = true ∧
      '\n' ∉ firstLineChars m.data) := by
  constructor
  · intro b msg h
    cases b with
    | malformed => simp [parseResponse] at h
    | apiError m => simp [parseResponse] at h
    | choices c =>
      simp only [parseResponse] at h
      by_cases hraw : (trimChars (c.getD "").data).isEmpty
      · simp [hraw] at h
      · rw [if_neg hraw] at h
        set raw := trimChars (c.getD "").data with hrawdef
        set lines := ((splitNl raw).map cleanLine).filter (fun l => !l.isEmpty)
          with hlines
        have hs0 : '\n' ∉ lines.headD [] := by
          cases hl : lines with
          | nil => simp
          | cons a as =>
            have ha : a ∈ lines := by rw [hl]; exact List.mem_cons_self a as
            rw [hlines] at ha
            have ha2 := (List.mem_filter.mp ha).1
            obtain ⟨orig, horig, rfl⟩ := List.mem_map.mp ha2
            have hnl := no_nl_of_mem_splitNl raw orig horig
            simp only [hl, List.headD_cons]
            exact fun hm => hnl (mem_of_mem_cleanLine hm)
        have hsubj_nl : '\n' ∉ (if (lines.headD []).length > 72 then
            (lines.headD []).take 69 ++ "...".data else lines.headD []) := by
          split
          · intro hm
            rcases List.mem_append.mp hm with hm1 | hm2
            · exact hs0 ((List.take_sublist _ _).subset hm1)
            · simp at hm2
          · exact hs0
        have hsubj_len : (if (lines.headD []).length > 72 then
            (lines.headD []).take 69 ++ "...".data else lines.headD []).length ≤ 72 := by
          split
          · simp only [List.length_append, List.length_take, List.length_cons,
              List.length_nil]
            omega
          · omega
        split at h
        · rw [Except.ok.injEq] at h
          subst h
          rw [show (String.mk (if (lines.headD []).length > 72 then
              (lines.headD []).take 69 ++ "...".data else lines.headD [])).data =
              (if (lines.headD []).length > 72 then
              (lines.headD []).take 69 ++ "...".data else lines.headD []) from rfl]
          rw [firstLineChars_of_no_nl _ hsubj_nl]
          exact hsubj_len
        · rw [Except.ok.injEq] at h
          subst h
          rw [show (String.mk ((if (lines.headD []).length > 72 then
              (lines.headD []).take 69 ++ "...".data else lines.headD []) ++
              '\n' :: '\n' :: joinNl ((lines.drop 1).take 4))).data =
              (if (lines.headD []).length > 72 then
              (lines.headD []).take 69 ++ "...".data else lines.headD []) ++
              '\n' :: '\n' :: joinNl ((lines.drop 1).take 4) from rfl]
          rw [firstLineChars_append_nl _ _ hsubj_nl]
          exact hsubj_len
  · intro m
    refine ⟨quotesEscapedFrom_escapeDollars (escapeQuotes m.data) false
      (quotesEscapedFrom_escapeQuotes m.data false), ?_⟩
    intro hm
    have := List.mem_takeWhile_imp hm
    simp at this

/-- C6 counterexample: the deterministic fallback path enforces no
72-character bound — with the in-source fallback templates and a 63-character
basename, the composed message (which the pipeline selects when generation
fails with HTTP 500) is a single line of more than 72 characters. -/
theorem fallback_subject_over_72_counterexample :
    selectMessage
        (getSmartMessageWithFile List.head? fallbackMessages
          "/tmp/aaaaaaaaaaaaaaaaaaaaaaaaaaaaaaaaaaaaaaaaaaaaaaaaaaaaaaaaaaaa.ts" true false)
        true (some (Except.error "HTTP 500")) =
      getSmartMessageWithFile List.head? fallbackMessages
        "/tmp/aaaaaaaaaaaaaaaaaaaaaaaaaaaaaaaaaaaaaaaaaaaaaaaaaaaaaaaaaaaa.ts" true false ∧
    72 < (firstLineChars (getSmartMessageWithFile List.head? fallbackMessages
        "/tmp/aaaaaaaaaaaaaaaaaaaaaaaaaaaaaaaaaaaaaaaaaaaaaaaaaaaaaaaaaaaa.ts" true false).data).length := by
  decide

/-- Closed witness for `composer_subject_bounds`: the parsed response
"Fix parser bug" keeps its 14-character subject, and escaping a message with
quotes and dollars leaves every quote escaped and the first line
newline-free. -/
theorem composer_subject_bounds_witness :
    (firstLineChars ("Fix parser bug" : String).data).length ≤ 72 ∧
    quotesEscaped (escapeMessage "say \"hi\" for $5").data = true ∧
    '\n' ∉ firstLineChars ("Fix parser bug" : String).data :=
  ⟨composer_subject_bounds.1 (ParsedBody.choices (some "Fix parser bug"))
      "Fix parser bug" (by rfl),
   (composer_subject_bounds.2 "say \"hi\" for $5").1,
   (composer_subject_bounds.2 "Fix parser bug").2⟩
